import Mathlib

/-!
Verification of the structured-mesh geometry engine (discretize core).

The Python source is shallowly embedded: mesh shapes are `List ℕ`, cell
widths and coordinates are `ℚ` (the code's floating-point arithmetic is
modelled exactly over the rationals), sparse matrices are Mathlib
`Matrix` values over `ℚ`, and fallible operations return `Option` or
`Except`.  Where a definition is translated from `base_mesh.py`,
`base_tensor_mesh.py` or `curvilinear_mesh.py` the Python symbol is
named in its doc comment; helper routines from the external `utils` /
`DiffOperators` modules (not part of this tree) are modelled from the
specification and marked as such.
-/

namespace Discretize

/-! ## Topology counting (`base_mesh.py`, `BaseMesh`) -/

/-- `BaseMesh.nFx`: `(shape + np.r_[1,0,0][:dim]).prod()`.  `zipWith`
truncates exactly as the `[:dim]` slice does. -/
def nFx (shape : List ℕ) : ℕ :=
  (List.zipWith (· + ·) shape [1, 0, 0]).prod

/-- `BaseMesh.nFy`: `None` when `dim < 2`, else `(shape + np.r_[0,1,0][:dim]).prod()`. -/
def nFy (shape : List ℕ) : Option ℕ :=
  if shape.length < 2 then none
  else some (List.zipWith (· + ·) shape [0, 1, 0]).prod

/-- `BaseMesh.nFz`: `None` when `dim < 3`, else `(shape + np.r_[0,0,1][:dim]).prod()`. -/
def nFz (shape : List ℕ) : Option ℕ :=
  if shape.length < 3 then none
  else some (List.zipWith (· + ·) shape [0, 0, 1]).prod

/-- `BaseMesh.vnF`: the list `[nFx, nFy, nFz]` with the `None` entries dropped. -/
def vnF (shape : List ℕ) : List ℕ :=
  ([some (nFx shape), nFy shape, nFz shape]).filterMap id

/-- `BaseMesh.nF`: `vnF.sum()`. -/
def nF (shape : List ℕ) : ℕ :=
  (vnF shape).sum

/-- Face count for a named axis (`a = 0,1,2` selects `nFx`, `nFy`, `nFz`);
any other axis is "not applicable". -/
def faceCountAxis (shape : List ℕ) (a : ℕ) : Option ℕ :=
  match a with
  | 0 => some (nFx shape)
  | 1 => nFy shape
  | 2 => nFz shape
  | _ => none

/-- Per-axis face-count formula as the specification amends to: along the
face's own axis the cell count is incremented, the other axes keep their
cell counts. -/
def specFaceCountAxis (shape : List ℕ) (a : ℕ) : ℕ :=
  ((List.range shape.length).map
    (fun i => shape.getD i 0 + if i = a then 1 else 0)).prod

/-- `BaseMesh.nEx`: `(shape + np.r_[0,1,1][:dim]).prod()`. -/
def nEx (shape : List ℕ) : ℕ :=
  (List.zipWith (· + ·) shape [0, 1, 1]).prod

/-- `BaseMesh.nEy`: `None` when `dim < 2`, else `(shape + np.r_[1,0,1][:dim]).prod()`. -/
def nEy (shape : List ℕ) : Option ℕ :=
  if shape.length < 2 then none
  else some (List.zipWith (· + ·) shape [1, 0, 1]).prod

/-- `BaseMesh.nEz`: `None` when `dim < 3`, else `(shape + np.r_[1,1,0][:dim]).prod()`. -/
def nEz (shape : List ℕ) : Option ℕ :=
  if shape.length < 3 then none
  else some (List.zipWith (· + ·) shape [1, 1, 0]).prod

/-- `BaseMesh.vnE`: the list `[nEx, nEy, nEz]` with the `None` entries dropped. -/
def vnE (shape : List ℕ) : List ℕ :=
  ([some (nEx shape), nEy shape, nEz shape]).filterMap id

/-- `BaseMesh.nE`: `vnE.sum()`. -/
def nE (shape : List ℕ) : ℕ :=
  (vnE shape).sum

/-- `BaseMesh.nC`: `shape.prod()`. -/
def nC (shape : List ℕ) : ℕ :=
  shape.prod

/-- `BaseMesh.nN`: `(shape+1).prod()`. -/
def nN (shape : List ℕ) : ℕ :=
  (shape.map (· + 1)).prod

end Discretize

namespace Discretize

/-- C3 counterexample: the claim's per-axis formula
`prod (shape[i] + (0 if i==a else 1))` disagrees with the code already on
`shape = [2,3]`, axis `0`: the code counts `(2+1)*3 = 9` x-faces while the
formula yields `(2+0)*(3+1) = 8`. -/
theorem faceCountAxis_claim_false :
    faceCountAxis [2, 3] 0 ≠
      some (((List.range 2).map
        (fun i => [2, 3].getD i 0 + if i = 0 then 0 else 1)).prod) := by
  decide

/-- C3 (amended): the number of faces normal to axis `a` is the product of
`shape[i] + (1 if i==a else 0)` (the increment is along the face's own
axis, not the others); the total face count is the sum of the per-axis
counts, and on the 2-D mesh of shape `[2,2]` this gives
`nFx = 6`, `nFy = 6`, `nF = 12`. -/
theorem faceCountAxis_spec (shape : List ℕ) (hlen : shape.length ≤ 3)
    (a : ℕ) (ha : a < shape.length) :
    faceCountAxis shape a = some (specFaceCountAxis shape a) ∧
    nF shape = ((List.range shape.length).map (specFaceCountAxis shape)).sum ∧
    nFx [2, 2] = 6 ∧ nFy [2, 2] = some 6 ∧ nF [2, 2] = 12 := by
  refine ⟨?_, ?_, by decide, by decide, by decide⟩
  · rcases shape with _ | ⟨n₁, sh⟩
    · simp at ha
    rcases sh with _ | ⟨n₂, sh⟩
    · simp only [List.length_cons, List.length_nil] at ha
      interval_cases a <;>
        simp [faceCountAxis, nFx, specFaceCountAxis, List.range_succ] <;>
          try ring
    rcases sh with _ | ⟨n₃, sh⟩
    · simp only [List.length_cons, List.length_nil] at ha
      interval_cases a <;>
        simp [faceCountAxis, nFx, nFy, specFaceCountAxis, List.range_succ] <;>
          try ring
    rcases sh with _ | ⟨n₄, sh⟩
    · simp only [List.length_cons, List.length_nil] at ha
      interval_cases a <;>
        simp [faceCountAxis, nFx, nFy, nFz, specFaceCountAxis,
          List.range_succ] <;> try ring
    · simp only [List.length_cons] at hlen
      omega
  · rcases shape with _ | ⟨n₁, sh⟩
    · simp at ha
    rcases sh with _ | ⟨n₂, sh⟩
    · simp [nF, vnF, nFx, nFy, nFz, specFaceCountAxis, List.range_succ] <;>
        try ring
    rcases sh with _ | ⟨n₃, sh⟩
    · simp [nF, vnF, nFx, nFy, nFz, specFaceCountAxis, List.range_succ] <;>
        try ring
    rcases sh with _ | ⟨n₄, sh⟩
    · simp [nF, vnF, nFx, nFy, nFz, specFaceCountAxis, List.range_succ] <;>
        try ring
    · simp only [List.length_cons] at hlen
      omega

/-- C3 witness: the amended statement instantiated on the mesh of shape
`[2,3]`, axis `0`. -/
theorem faceCountAxis_spec_witness :
    faceCountAxis [2, 3] 0 = some (specFaceCountAxis [2, 3] 0) ∧
    nF [2, 3] = ((List.range 2).map (specFaceCountAxis [2, 3])).sum ∧
    nFx [2, 2] = 6 ∧ nFy [2, 2] = some 6 ∧ nF [2, 2] = 12 :=
  faceCountAxis_spec [2, 3] (by decide) 0 (by decide)

/-! ## Per-axis coordinate vectors (`base_tensor_mesh.py`, `BaseTensorMesh`) -/

/-- `BaseTensorMesh.vectorNx`: `np.r_[0., hx.cumsum()] + x0[0]`.
`List.scanl (+) 0 h` is exactly `np.r_[0., h.cumsum()]`. -/
def vectorNx (h : List ℚ) (x0 : ℚ) : List ℚ :=
  (h.scanl (· + ·) 0).map (· + x0)

/-- `BaseTensorMesh.vectorCCx`: `np.r_[0, hx[:-1].cumsum()] + hx*0.5 + x0[0]`,
the elementwise sum of the three length-`n` arrays. -/
def vectorCCx (h : List ℚ) (x0 : ℚ) : List ℚ :=
  (List.zipWith (· + ·) (h.dropLast.scanl (· + ·) 0)
    (h.map (· * (1/2)))).map (· + x0)

/-- Entry `k` of `scanl (+) b l` is `b` plus the sum of the first `k`
elements of `l`. -/
theorem scanl_add_getD (l : List ℚ) (b : ℚ) (k : ℕ) (hk : k ≤ l.length) :
    (l.scanl (· + ·) b).getD k 0 = b + (l.take k).sum := by
  induction l generalizing b k with
  | nil =>
      obtain rfl : k = 0 := by simpa using hk
      simp [List.scanl]
  | cons a t ih =>
      cases k with
      | zero => simp [List.scanl]
      | succ k =>
          simp only [List.scanl, List.getD_cons_succ, List.take_succ_cons,
            List.sum_cons]
          rw [ih (b + a) k (by simpa using hk)]
          ring

/-- C4: node coordinates are the origin-offset partial sums of the cell
widths (`N[0] = x0`, `N[k] = x0 + h[0] + ... + h[k-1]`), each cell-center
coordinate is the midpoint of the two adjacent node coordinates, and on
`h = [1,1,1,1]`, `x0 = 0` the vectors are `[0,1,2,3,4]` and
`[1/2, 3/2, 5/2, 7/2]`. -/
theorem vectorN_vectorCC_spec (h : List ℚ) (x0 : ℚ) (k : ℕ)
    (hk : k < h.length) :
    (vectorNx h x0).getD 0 0 = x0 ∧
    (vectorNx h x0).getD k 0 = x0 + (h.take k).sum ∧
    (vectorNx h x0).getD (k + 1) 0 = x0 + (h.take (k + 1)).sum ∧
    (vectorCCx h x0).getD k 0 =
      ((vectorNx h x0).getD k 0 + (vectorNx h x0).getD (k + 1) 0) / 2 ∧
    vectorNx [1, 1, 1, 1] 0 = [0, 1, 2, 3, 4] ∧
    vectorCCx [1, 1, 1, 1] 0 = [1/2, 3/2, 5/2, 7/2] := by
  have hlen : (h.scanl (· + ·) 0).length = h.length + 1 := by
    simp [List.length_scanl]
  have hN : ∀ j, j ≤ h.length → (vectorNx h x0).getD j 0 = x0 + (h.take j).sum := by
    intro j hj
    have hjlt : j < (h.scanl (· + ·) 0).length := by omega
    rw [vectorNx, List.getD_eq_getElem _ _ (by simpa using hjlt),
      List.getElem_map]
    rw [← List.getD_eq_getElem _ 0 hjlt, scanl_add_getD h 0 j hj]
    ring
  refine ⟨by simpa using hN 0 (by omega), hN k (by omega),
    hN (k + 1) (by omega), ?_,
    by norm_num [vectorNx, List.scanl],
    by norm_num [vectorCCx, List.scanl]⟩
  have hdl : h.dropLast.length = h.length - 1 := List.length_dropLast h
  have hkdl : k ≤ h.dropLast.length := by omega
  have hsl : (h.dropLast.scanl (· + ·) 0).length = h.dropLast.length + 1 := by
    simp [List.length_scanl]
  have hzlen : k < (List.zipWith (· + ·) (h.dropLast.scanl (· + ·) 0)
      (h.map (· * (1/2)))).length := by
    simp only [List.length_zipWith, List.length_map, hsl]
    omega
  rw [vectorCCx, List.getD_eq_getElem _ _ (by simpa using hzlen),
    List.getElem_map, List.getElem_zipWith, List.getElem_map]
  rw [← List.getD_eq_getElem _ (0 : ℚ) (by omega : k < (h.dropLast.scanl (· + ·) 0).length),
    scanl_add_getD _ 0 k hkdl]
  rw [hN k (by omega), hN (k + 1) (by omega)]
  have htake : h.dropLast.take k = h.take k := by
    rw [List.dropLast_eq_take, List.take_take]
    congr 1
    omega
  have hsum : (h.take (k + 1)).sum = (h.take k).sum + h[k] := by
    rw [List.sum_take_succ h k hk]
  rw [htake, hsum]
  ring

/-- C4 witness: the statement instantiated on `h = [1,1,1,1]`, `x0 = 0`,
`k = 2`. -/
theorem vectorN_vectorCC_spec_witness :
    (vectorNx [1, 1, 1, 1] 0).getD 0 0 = 0 ∧
    (vectorNx [1, 1, 1, 1] 0).getD 2 0 = 0 + ([(1 : ℚ), 1, 1, 1].take 2).sum ∧
    (vectorNx [1, 1, 1, 1] 0).getD 3 0 = 0 + ([(1 : ℚ), 1, 1, 1].take 3).sum ∧
    (vectorCCx [1, 1, 1, 1] 0).getD 2 0 =
      ((vectorNx [1, 1, 1, 1] 0).getD 2 0 +
        (vectorNx [1, 1, 1, 1] 0).getD 3 0) / 2 ∧
    vectorNx [1, 1, 1, 1] 0 = [0, 1, 2, 3, 4] ∧
    vectorCCx [1, 1, 1, 1] 0 = [1/2, 3/2, 5/2, 7/2] :=
  vectorN_vectorCC_spec [1, 1, 1, 1] 0 2 (by decide)

/-! ## Grid building and the reshape utility
(`BaseTensorMesh._getTensorGrid` / `BaseRectangularMesh.r`) -/

/-- Modelled from the spec: `utils.mkvc` (not under `src/`) flattens an
array in the fixed column-major (Fortran) element order, so flat index `k`
of an `n0`-row matrix reads row `k % n0`, column `k / n0`. -/
def mkvc2 (n0 : ℕ) (M : ℕ → ℕ → ℚ) : ℕ → ℚ :=
  fun k => M (k % n0) (k / n0)

/-- `BaseRectangularMesh.r` with `format='M'` (`outKernal`):
`xx.reshape(nn, order='F')`, i.e. entry `(i, j)` of the matrix form reads
flat index `i + n0*j`. -/
def reshapeM2 (n0 : ℕ) (v : ℕ → ℚ) : ℕ → ℕ → ℚ :=
  fun i j => v (i + n0 * j)

/-- Modelled from the spec: `utils.ndgrid` (not under `src/`) builds the
full-dimensional point set as the outer product of the per-axis tensors,
flattened in column-major order (first axis fastest); column `a` of the
2-D result at flat index `k` is `tx (k % n0)` for `a = 0` and
`ty (k / n0)` for `a = 1`. -/
def ndgridCol2 (n0 : ℕ) (tx ty : ℕ → ℚ) (a : ℕ) : ℕ → ℚ :=
  fun k => if a = 0 then tx (k % n0) else ty (k / n0)

/-- Column `a` of `gridN = ndgrid(getTensor('N'))` for a 2-D tensor mesh:
the per-axis tensors are the `vectorNx`-style node vectors
(`_getTensorGrid` with key `'N'`). -/
def nodeGridCol (h0 h1 : List ℚ) (x00 x01 : ℚ) (a : ℕ) : ℕ → ℚ :=
  ndgridCol2 (h0.length + 1)
    (fun i => (vectorNx h0 x00).getD i 0)
    (fun j => (vectorNx h1 x01).getD j 0) a

/-- `utils.mkvc` in three dimensions (modelled from the spec, column-major):
flat index `k` of an `n0 × n1 × n2` array reads entry
`(k % n0, k / n0 % n1, k / (n0*n1))`. -/
def mkvc3 (n0 n1 : ℕ) (M : ℕ → ℕ → ℕ → ℚ) : ℕ → ℚ :=
  fun k => M (k % n0) (k / n0 % n1) (k / (n0 * n1))

/-- `BaseRectangularMesh.r` with `format='M'` in three dimensions:
`xx.reshape((n0,n1,n2), order='F')`, entry `(i,j,l)` reads flat index
`i + n0*j + n0*n1*l`. -/
def reshapeM3 (n0 n1 : ℕ) (v : ℕ → ℚ) : ℕ → ℕ → ℕ → ℚ :=
  fun i j l => v (i + n0 * j + n0 * n1 * l)

/-- Modelled from the spec: column `a` of the 3-D `utils.ndgrid` output,
column-major (first axis fastest). -/
def ndgridCol3 (n0 n1 : ℕ) (tx ty tz : ℕ → ℚ) (a : ℕ) : ℕ → ℚ :=
  fun k =>
    if a = 0 then tx (k % n0)
    else if a = 1 then ty (k / n0 % n1)
    else tz (k / (n0 * n1))

/-- Column `a` of `gridN` for a 3-D tensor mesh. -/
def nodeGridCol3 (h0 h1 h2 : List ℚ) (x00 x01 x02 : ℚ) (a : ℕ) : ℕ → ℚ :=
  ndgridCol3 (h0.length + 1) (h1.length + 1)
    (fun i => (vectorNx h0 x00).getD i 0)
    (fun j => (vectorNx h1 x01).getD j 0)
    (fun l => (vectorNx h2 x02).getD l 0) a

/-- Column-major flatten after column-major reshape is the identity in 3-D. -/
theorem mkvc3_reshapeM3 (n0 n1 : ℕ) (v : ℕ → ℚ) (k : ℕ) :
    mkvc3 n0 n1 (reshapeM3 n0 n1 v) k = v k := by
  simp only [mkvc3, reshapeM3]
  congr 1
  rw [← Nat.div_div_eq_div_mul]
  have h1 : k / n0 % n1 + n1 * (k / n0 / n1) = k / n0 := Nat.mod_add_div _ _
  calc k % n0 + n0 * (k / n0 % n1) + n0 * n1 * (k / n0 / n1)
      = k % n0 + n0 * (k / n0 % n1 + n1 * (k / n0 / n1)) := by ring
    _ = k % n0 + n0 * (k / n0) := by rw [h1]
    _ = k := Nat.mod_add_div _ _

/-- A 3-D flat index built from in-range coordinates decodes back to them. -/
theorem decode3 (n0 n1 i j l : ℕ) (hi : i < n0) (hj : j < n1) :
    (i + n0 * j + n0 * n1 * l) % n0 = i ∧
    (i + n0 * j + n0 * n1 * l) / n0 % n1 = j ∧
    (i + n0 * j + n0 * n1 * l) / (n0 * n1) = l := by
  have hpos0 : 0 < n0 := Nat.pos_of_ne_zero (by omega)
  have hpos01 : 0 < n0 * n1 := Nat.mul_pos hpos0 (by omega)
  have hsplit : i + n0 * j + n0 * n1 * l = i + n0 * (j + n1 * l) := by ring
  refine ⟨?_, ?_, ?_⟩
  · rw [hsplit, Nat.add_mul_mod_self_left, Nat.mod_eq_of_lt hi]
  · rw [hsplit, Nat.add_mul_div_left _ _ hpos0, Nat.div_eq_of_lt hi,
      Nat.zero_add, Nat.add_mul_mod_self_left, Nat.mod_eq_of_lt hj]
  · have hbound : i + n0 * j < n0 * n1 := by
      calc i + n0 * j < n0 + n0 * j := by omega
        _ = n0 * (j + 1) := by ring
        _ ≤ n0 * n1 := Nat.mul_le_mul_left n0 (by omega)
    have hsplit2 : i + n0 * j + n0 * n1 * l = (i + n0 * j) + (n0 * n1) * l := by
      ring
    rw [hsplit2, Nat.add_mul_div_left _ _ hpos01, Nat.div_eq_of_lt hbound,
      Nat.zero_add]

/-- C2: for every 2-D and 3-D tensor mesh, flattening (`mkvc`,
column-major) the matrix form produced by `r(gridN, 'N', 'N', 'M')`
reproduces every entry of `gridN` unchanged, and the matrix form places
the node tensors where the grid builder put them — entry `(i, j)` of the
reshaped x-column is `vectorNx[i]`, of the y-column `vectorNy[j]`, and in
3-D entry `(i, j, l)` of the three columns is `vectorNx[i]`,
`vectorNy[j]`, `vectorNz[l]` — so the column-major flattening order of
the grid builder and the order assumed by the reshape utility agree. -/
theorem gridN_reshape_roundTrip (h0 h1 h2 : List ℚ) (x00 x01 x02 : ℚ)
    (a k i j l : ℕ) (hi : i < h0.length + 1) (hj : j < h1.length + 1) :
    mkvc2 (h0.length + 1)
      (reshapeM2 (h0.length + 1) (nodeGridCol h0 h1 x00 x01 a)) k =
      nodeGridCol h0 h1 x00 x01 a k ∧
    reshapeM2 (h0.length + 1) (nodeGridCol h0 h1 x00 x01 0) i j =
      (vectorNx h0 x00).getD i 0 ∧
    reshapeM2 (h0.length + 1) (nodeGridCol h0 h1 x00 x01 1) i j =
      (vectorNx h1 x01).getD j 0 ∧
    mkvc3 (h0.length + 1) (h1.length + 1)
      (reshapeM3 (h0.length + 1) (h1.length + 1)
        (nodeGridCol3 h0 h1 h2 x00 x01 x02 a)) k =
      nodeGridCol3 h0 h1 h2 x00 x01 x02 a k ∧
    reshapeM3 (h0.length + 1) (h1.length + 1)
      (nodeGridCol3 h0 h1 h2 x00 x01 x02 0) i j l =
      (vectorNx h0 x00).getD i 0 ∧
    reshapeM3 (h0.length + 1) (h1.length + 1)
      (nodeGridCol3 h0 h1 h2 x00 x01 x02 1) i j l =
      (vectorNx h1 x01).getD j 0 ∧
    reshapeM3 (h0.length + 1) (h1.length + 1)
      (nodeGridCol3 h0 h1 h2 x00 x01 x02 2) i j l =
      (vectorNx h2 x02).getD l 0 := by
  have hpos : 0 < h0.length + 1 := Nat.succ_pos _
  obtain ⟨hd0, hd1, hd2⟩ :=
    decode3 (h0.length + 1) (h1.length + 1) i j l hi hj
  refine ⟨?_, ?_, ?_, mkvc3_reshapeM3 _ _ _ k, ?_, ?_, ?_⟩
  · simp only [mkvc2, reshapeM2]
    rw [Nat.mod_add_div]
  · simp only [reshapeM2, nodeGridCol, ndgridCol2, if_pos rfl]
    rw [Nat.add_mul_mod_self_left, Nat.mod_eq_of_lt hi]
    simp
  · simp only [reshapeM2, nodeGridCol, ndgridCol2]
    rw [if_neg (by omega), Nat.add_mul_div_left _ _ hpos,
      Nat.div_eq_of_lt hi]
    simp
  · simp only [reshapeM3, nodeGridCol3, ndgridCol3]
    rw [hd0]
    simp
  · simp only [reshapeM3, nodeGridCol3, ndgridCol3]
    rw [hd1]
    simp
  · simp only [reshapeM3, nodeGridCol3, ndgridCol3]
    rw [hd2]
    simp

/-- C2 witness: the round trip on the 2-D mesh with `h = [[1,1],[1,1]]`
and the 3-D mesh with an extra unit axis, at column `0`, flat index `5`,
matrix entry `(1, 1, 0)`. -/
theorem gridN_reshape_roundTrip_witness :
    mkvc2 3 (reshapeM2 3 (nodeGridCol [1, 1] [1, 1] 0 0 0)) 5 =
      nodeGridCol [1, 1] [1, 1] 0 0 0 5 ∧
    reshapeM2 3 (nodeGridCol [1, 1] [1, 1] 0 0 0) 1 1 =
      (vectorNx [1, 1] 0).getD 1 0 ∧
    reshapeM2 3 (nodeGridCol [1, 1] [1, 1] 0 0 1) 1 1 =
      (vectorNx [1, 1] 0).getD 1 0 ∧
    mkvc3 3 3 (reshapeM3 3 3 (nodeGridCol3 [1, 1] [1, 1] [1] 0 0 0 0)) 5 =
      nodeGridCol3 [1, 1] [1, 1] [1] 0 0 0 0 5 ∧
    reshapeM3 3 3 (nodeGridCol3 [1, 1] [1, 1] [1] 0 0 0 0) 1 1 0 =
      (vectorNx [1, 1] 0).getD 1 0 ∧
    reshapeM3 3 3 (nodeGridCol3 [1, 1] [1, 1] [1] 0 0 0 1) 1 1 0 =
      (vectorNx [1, 1] 0).getD 1 0 ∧
    reshapeM3 3 3 (nodeGridCol3 [1, 1] [1, 1] [1] 0 0 0 2) 1 1 0 =
      (vectorNx [1] 0).getD 0 0 :=
  gridN_reshape_roundTrip [1, 1] [1, 1] [1] 0 0 0 0 5 1 1 0
    (by decide) (by decide)

/-! ## Face normals and edge tangents (`BaseMesh.normals` / `BaseMesh.tangents`) -/

/-- `BaseMesh.normals`: for `dim == 2` the stacked blocks
`np.c_[ones(nFx), zeros(nFx)]` and `np.c_[zeros(nFy), ones(nFy)]`, for
`dim == 3` the three analogous blocks; any other dimension falls through
both branches and the property returns `None`.  The dense array is
represented by its entry function `(row, col) ↦ value` on rows `< nF`
and columns `< dim`. -/
def normals (shape : List ℕ) : Option (ℕ → ℕ → ℚ) :=
  if shape.length = 2 then
    some (fun r c =>
      if r < nFx shape then (if c = 0 then 1 else 0)
      else (if c = 1 then 1 else 0))
  else if shape.length = 3 then
    some (fun r c =>
      if r < nFx shape then (if c = 0 then 1 else 0)
      else if r < nFx shape + (nFy shape).getD 0 then (if c = 1 then 1 else 0)
      else (if c = 2 then 1 else 0))
  else none

/-- `BaseMesh.tangents`: same block structure as `normals`, with the edge
counts `nEx`, `nEy`, `nEz`; `None` outside dimensions 2 and 3. -/
def tangents (shape : List ℕ) : Option (ℕ → ℕ → ℚ) :=
  if shape.length = 2 then
    some (fun r c =>
      if r < nEx shape then (if c = 0 then 1 else 0)
      else (if c = 1 then 1 else 0))
  else if shape.length = 3 then
    some (fun r c =>
      if r < nEx shape then (if c = 0 then 1 else 0)
      else if r < nEx shape + (nEy shape).getD 0 then (if c = 1 then 1 else 0)
      else (if c = 2 then 1 else 0))
  else none

/-- C6 counterexample: on a 1-D mesh (`shape = [4]`) both `normals` and
`tangents` fall through the `dim == 2` / `dim == 3` branches and return
`None` rather than the claimed dense `(nF, 1)` / `(nE, 1)` arrays of unit
basis rows. -/
theorem normals_dim1_none :
    normals [4] = none ∧ tangents [4] = none := by
  constructor <;> rfl

/-- C6 (amended): for meshes of dimension 2 or 3, `normals` returns the
dense array whose row for every face normal to axis `a` is the unit basis
vector of axis `a`, in per-axis blocks (x-faces, then y-faces, then
z-faces), and `tangents` likewise for edges; for 1-D meshes the
properties return `None` instead. -/
theorem normals_tangents_spec (shape : List ℕ)
    (hd : shape.length = 2 ∨ shape.length = 3) :
    (∃ f, normals shape = some f ∧
      (∀ r, r < nFx shape → ∀ c, f r c = if c = 0 then 1 else 0) ∧
      (∀ r, nFx shape ≤ r → r < nFx shape + (nFy shape).getD 0 →
        ∀ c, f r c = if c = 1 then 1 else 0) ∧
      (shape.length = 3 →
        ∀ r, nFx shape + (nFy shape).getD 0 ≤ r → r < nF shape →
          ∀ c, f r c = if c = 2 then 1 else 0)) ∧
    (∃ g, tangents shape = some g ∧
      (∀ r, r < nEx shape → ∀ c, g r c = if c = 0 then 1 else 0) ∧
      (∀ r, nEx shape ≤ r → r < nEx shape + (nEy shape).getD 0 →
        ∀ c, g r c = if c = 1 then 1 else 0) ∧
      (shape.length = 3 →
        ∀ r, nEx shape + (nEy shape).getD 0 ≤ r → r < nE shape →
          ∀ c, g r c = if c = 2 then 1 else 0)) := by
  rcases hd with h2 | h3
  · constructor
    · refine ⟨_, by rw [normals, if_pos h2], ?_, ?_, ?_⟩
      · intro r hr c
        simp [if_pos hr]
      · intro r hr _ c
        simp [if_neg (by omega : ¬ r < nFx shape)]
      · intro h3'
        omega
    · refine ⟨_, by rw [tangents, if_pos h2], ?_, ?_, ?_⟩
      · intro r hr c
        simp [if_pos hr]
      · intro r hr _ c
        simp [if_neg (by omega : ¬ r < nEx shape)]
      · intro h3'
        omega
  · constructor
    · refine ⟨_, by rw [normals, if_neg (by omega), if_pos h3], ?_, ?_, ?_⟩
      · intro r hr c
        simp [if_pos hr]
      · intro r hr hr' c
        simp [if_neg (by omega : ¬ r < nFx shape), if_pos hr']
      · intro _ r hr _ c
        simp [if_neg (by omega : ¬ r < nFx shape),
          if_neg (by omega : ¬ r < nFx shape + (nFy shape).getD 0)]
    · refine ⟨_, by rw [tangents, if_neg (by omega), if_pos h3], ?_, ?_, ?_⟩
      · intro r hr c
        simp [if_pos hr]
      · intro r hr hr' c
        simp [if_neg (by omega : ¬ r < nEx shape), if_pos hr']
      · intro _ r hr _ c
        simp [if_neg (by omega : ¬ r < nEx shape),
          if_neg (by omega : ¬ r < nEx shape + (nEy shape).getD 0)]

/-- C6 witness: the amended statement instantiated on the 2-D mesh of
shape `[2,2]`. -/
theorem normals_tangents_spec_witness :
    (∃ f, normals [2, 2] = some f ∧
      (∀ r, r < nFx [2, 2] → ∀ c, f r c = if c = 0 then 1 else 0) ∧
      (∀ r, nFx [2, 2] ≤ r → r < nFx [2, 2] + (nFy [2, 2]).getD 0 →
        ∀ c, f r c = if c = 1 then 1 else 0) ∧
      (([2, 2] : List ℕ).length = 3 →
        ∀ r, nFx [2, 2] + (nFy [2, 2]).getD 0 ≤ r → r < nF [2, 2] →
          ∀ c, f r c = if c = 2 then 1 else 0)) ∧
    (∃ g, tangents [2, 2] = some g ∧
      (∀ r, r < nEx [2, 2] → ∀ c, g r c = if c = 0 then 1 else 0) ∧
      (∀ r, nEx [2, 2] ≤ r → r < nEx [2, 2] + (nEy [2, 2]).getD 0 →
        ∀ c, g r c = if c = 1 then 1 else 0) ∧
      (([2, 2] : List ℕ).length = 3 →
        ∀ r, nEx [2, 2] + (nEy [2, 2]).getD 0 ≤ r → r < nE [2, 2] →
          ∀ c, g r c = if c = 2 then 1 else 0)) :=
  normals_tangents_spec [2, 2] (Or.inl rfl)

/-! ## Reference-frame validation
(`BaseMesh._check_ortho`, `UnitaryTypedArray.validate_unit`) -/

/-- Dot product of two length-3 vectors (`np.dot` on `axis_u` etc.). -/
def dot3 (u v : Fin 3 → ℚ) : ℚ :=
  u 0 * v 0 + u 1 * v 1 + u 2 * v 2

/-- `BaseMesh._check_ortho`: the root validator raises
`'axis_u, axis_v, and axis_w must be orthogonal'` as soon as any of the
three pairwise dot products exceeds `1E-6` in absolute value; validators
run during construction, before any derived state exists. -/
def checkOrtho (u v w : Fin 3 → ℚ) : Except String Unit :=
  if |dot3 u w| > 1/1000000 ∨ |dot3 v w| > 1/1000000 ∨ |dot3 u v| > 1/1000000
  then Except.error "axis_u, axis_v, and axis_w must be orthogonal"
  else Except.ok ()

/-- C9: construction fails with the geometry error exactly when the axis
triple is not pairwise orthogonal within tolerance `1e-6`; in particular
`axisU=[1,0,0], axisV=[0,1,0], axisW=[1,0,0]` is rejected. -/
theorem checkOrtho_spec (u v w : Fin 3 → ℚ)
    (h : |dot3 u w| > 1/1000000 ∨ |dot3 v w| > 1/1000000 ∨
      |dot3 u v| > 1/1000000) :
    (∃ msg, checkOrtho u v w = Except.error msg) ∧
    checkOrtho ![1, 0, 0] ![0, 1, 0] ![1, 0, 0] =
      Except.error "axis_u, axis_v, and axis_w must be orthogonal" := by
  refine ⟨⟨_, by rw [checkOrtho, if_pos h]⟩, ?_⟩
  rw [checkOrtho, if_pos]
  left
  norm_num [dot3]

/-- C9 witness: the statement instantiated on the non-orthogonal triple
from the specification's concrete scenario. -/
theorem checkOrtho_spec_witness :
    (∃ msg, checkOrtho ![1, 0, 0] ![0, 1, 0] ![1, 0, 0] =
      Except.error msg) ∧
    checkOrtho ![1, 0, 0] ![0, 1, 0] ![1, 0, 0] =
      Except.error "axis_u, axis_v, and axis_w must be orthogonal" :=
  checkOrtho_spec ![1, 0, 0] ![0, 1, 0] ![1, 0, 0]
    (Or.inl (by norm_num [dot3]))

/-- Squared Euclidean norm of a length-3 vector; `np.linalg.norm(val)` is
its (real) square root, and `norm == 0` iff the squared norm is `0`. -/
def normSq (v : Fin 3 → ℚ) : ℚ :=
  v 0 ^ 2 + v 1 ^ 2 + v 2 ^ 2

/-- `UnitaryTypedArray.validate_unit`, acceptance part: the validator
raises `'Input vector has 0 length'` when `arr_norm == 0` and otherwise
accepts, returning `val/arr_norm` (the rescaled value is a real vector;
its unit-norm property is stated in `validate_unit_spec`). -/
def validateUnitAccepts (v : Fin 3 → ℚ) : Bool :=
  !decide (normSq v = 0)

/-- C10: the validator rejects exactly the zero vector, and every accepted
vector, rescaled by its Euclidean norm as `validate_unit` returns it, has
squared Euclidean norm `1` — so all stored frame vectors are unit vectors
even when the caller supplied unnormalized input. -/
theorem validate_unit_spec (v : Fin 3 → ℚ) :
    (validateUnitAccepts v = false ↔ ∀ i, v i = 0) ∧
    (validateUnitAccepts v = true →
      (∑ i : Fin 3, ((v i : ℝ) / Real.sqrt (normSq v)) ^ 2) = 1) := by
  constructor
  · constructor
    · intro h i
      have hz : normSq v = 0 := by
        simpa [validateUnitAccepts] using h
      rw [normSq] at hz
      have h0 : v 0 = 0 := by nlinarith [sq_nonneg (v 0), sq_nonneg (v 1), sq_nonneg (v 2)]
      have h1 : v 1 = 0 := by nlinarith [sq_nonneg (v 0), sq_nonneg (v 1), sq_nonneg (v 2)]
      have h2 : v 2 = 0 := by nlinarith [sq_nonneg (v 0), sq_nonneg (v 1), sq_nonneg (v 2)]
      fin_cases i <;> assumption
    · intro h
      simp [validateUnitAccepts, normSq, h 0, h 1, h 2]
  · intro hv
    have hne : normSq v ≠ 0 := by
      simpa [validateUnitAccepts] using hv
    have hnn : (0 : ℚ) ≤ normSq v := by
      rw [normSq]
      positivity
    have hSR : (0 : ℝ) < (normSq v : ℝ) := by
      have : (0 : ℚ) < normSq v := lt_of_le_of_ne hnn (Ne.symm hne)
      exact_mod_cast this
    have hsq : ∀ x : ℝ, (x / Real.sqrt (normSq v)) ^ 2 = x ^ 2 / (normSq v : ℝ) := by
      intro x
      rw [div_pow, Real.sq_sqrt hSR.le]
    have hsum : (∑ i : Fin 3, ((v i : ℝ)) ^ 2) = (normSq v : ℝ) := by
      rw [Fin.sum_univ_three]
      push_cast [normSq]
      ring
    simp only [hsq]
    rw [← Finset.sum_div, hsum, div_self (ne_of_gt hSR)]

/-- C10 witness: the unnormalized vector `[3, 4, 0]` is accepted and its
rescaled value has squared norm `1`. -/
theorem validate_unit_spec_witness :
    validateUnitAccepts ![3, 4, 0] = true ∧
    (∑ i : Fin 3, ((![(3 : ℚ), 4, 0] i : ℝ) /
      Real.sqrt (normSq ![3, 4, 0])) ^ 2) = 1 :=
  ⟨by norm_num [validateUnitAccepts, normSq],
   (validate_unit_spec ![3, 4, 0]).2
    (by norm_num [validateUnitAccepts, normSq])⟩

/-! ## Point containment (`BaseTensorMesh.isInside`) -/

/-- `np.diff(t)`: consecutive differences of a 1-D tensor. -/
def diffList (t : List ℚ) : List ℚ :=
  List.zipWith (fun a b => a - b) t.tail t

/-- `ndarray.min()` on a nonempty array (`0` as junk value on empty). -/
def listMin (l : List ℚ) : ℚ :=
  match l with
  | [] => 0
  | a :: t => t.foldl min a

/-- `ndarray.max()` on a nonempty array (`0` as junk value on empty). -/
def listMax (l : List ℚ) : ℚ :=
  match l with
  | [] => 0
  | a :: t => t.foldl max a

/-- `TOL = np.diff(tensor).min() * 1.0e-10`, computed per axis tensor. -/
def tolAxis (t : List ℚ) : ℚ :=
  listMin (diffList t) * (1/10000000000)

/-- One axis of the containment test:
`(x >= tensor.min()-TOL) & (x <= tensor.max()+TOL)`. -/
def insideAxis (t : List ℚ) (x : ℚ) : Bool :=
  decide (listMin t - tolAxis t ≤ x) && decide (x ≤ listMax t + tolAxis t)

/-- `BaseTensorMesh.isInside`, CYL branch: when the mesh is cylindrical
and `locType == 'N'`, the radial tensor gets an extra boundary node at `0`
prepended and the angular tensor an extra boundary node at `2π` appended,
for the containment test only.  `twoPi` stands for the float `2.0*np.pi`. -/
def cylAdjust (isCyl : Bool) (locType : String) (twoPi : ℚ)
    (tensors : List (List ℚ)) : List (List ℚ) :=
  if isCyl && locType == "N" then
    match tensors with
    | t0 :: t1 :: rest => (0 :: t0) :: (t1 ++ [twoPi]) :: rest
    | l => l
  else tensors

/-- `BaseTensorMesh.isInside` for one point: the conjunction over the axis
tensors of the per-axis containment test (the source folds
`inside & ... & ...` over `enumerate(tensors)`). -/
def isInside (isCyl : Bool) (locType : String) (twoPi : ℚ)
    (tensors : List (List ℚ)) (pt : List ℚ) : Bool :=
  let ts := cylAdjust isCyl locType twoPi tensors
  (List.range ts.length).all (fun i => insideAxis (ts.getD i []) (pt.getD i 0))

/-- C7: a point is reported inside exactly when, for every axis, its
coordinate lies within `[min - tol, max + tol]` of that axis's location
tensor with `tol = 1e-10` times that axis's minimum spacing; and for a
cylindrical mesh with `locType = 'N'` the tensors used by the test are
the radial tensor extended by a node at `0` and the angular tensor
extended by a node at `2π` — the mesh's own tensors are unchanged. -/
theorem isInside_spec (isCyl : Bool) (locType : String) (twoPi : ℚ)
    (tensors : List (List ℚ)) (pt : List ℚ) :
    (isInside isCyl locType twoPi tensors pt = true ↔
      ∀ i < (cylAdjust isCyl locType twoPi tensors).length,
        listMin ((cylAdjust isCyl locType twoPi tensors).getD i []) -
            tolAxis ((cylAdjust isCyl locType twoPi tensors).getD i []) ≤
          pt.getD i 0 ∧
        pt.getD i 0 ≤
          listMax ((cylAdjust isCyl locType twoPi tensors).getD i []) +
            tolAxis ((cylAdjust isCyl locType twoPi tensors).getD i [])) ∧
    (∀ t0 t1 rest, tensors = t0 :: t1 :: rest →
      cylAdjust true "N" twoPi tensors =
        (0 :: t0) :: (t1 ++ [twoPi]) :: rest) := by
  constructor
  · rw [isInside, List.all_eq_true]
    constructor
    · intro h i hi
      have := h i (List.mem_range.mpr hi)
      simpa [insideAxis, -List.getD_eq_getElem?_getD] using this
    · intro h i hi
      have := h i (List.mem_range.mp hi)
      simpa [insideAxis, -List.getD_eq_getElem?_getD] using this
  · intro t0 t1 rest ht
    subst ht
    simp [cylAdjust]

/-- C7 witness: the containment test on the 1-D mesh with node tensor
`[0,1,2]`, point `x = 3/2`. -/
theorem isInside_spec_witness :
    (isInside false "N" 0 [[0, 1, 2]] [3/2] = true ↔
      ∀ i < (cylAdjust false "N" 0 [[0, 1, 2]]).length,
        listMin ((cylAdjust false "N" 0 [[0, 1, 2]]).getD i []) -
            tolAxis ((cylAdjust false "N" 0 [[0, 1, 2]]).getD i []) ≤
          ([(3 : ℚ)/2]).getD i 0 ∧
        ([(3 : ℚ)/2]).getD i 0 ≤
          listMax ((cylAdjust false "N" 0 [[0, 1, 2]]).getD i []) +
            tolAxis ((cylAdjust false "N" 0 [[0, 1, 2]]).getD i [])) ∧
    (∀ t0 t1 rest, ([[(0 : ℚ), 1, 2]]) = t0 :: t1 :: rest →
      cylAdjust true "N" 0 [[0, 1, 2]] =
        (0 :: t0) :: (t1 ++ [0]) :: rest) :=
  isInside_spec false "N" 0 [[0, 1, 2]] [3/2]

/-! ## Interpolation matrix (`BaseTensorMesh._getInterpolationMat`) -/

/-- `ndarray.mean()` of a 1-D tensor. -/
def listMean (l : List ℚ) : ℚ :=
  l.sum / l.length

/-- The snapping step of `_getInterpolationMat` with `zerosOutside=True`:
`loc[indZeros, :] = np.array([v.mean() for v in self.getTensor('CC')])` —
every out-of-domain point is replaced by the per-axis means of the
cell-center tensors (the mesh center). -/
def snapOutside (isCyl : Bool) (twoPi : ℚ)
    (nTensors ccTensors : List (List ℚ)) (pts : List (List ℚ)) :
    List (List ℚ) :=
  pts.map (fun p =>
    if isInside isCyl "N" twoPi nTensors p then p
    else ccTensors.map listMean)

/-- `BaseTensorMesh._getInterpolationMat` (scalar location types):
with `zerosOutside=False` it asserts every point is inside the mesh and
fails with `"Points outside of mesh"` otherwise; with `zerosOutside=True`
it snaps the out-of-domain points to the mesh center, applies the
interpolation core (`utils.interpmat`, not under `src/`, passed here as
a parameter), and finally forces the rows of out-of-domain points to
zero (`Q[indZeros, :] = 0`). -/
def getInterpolationMat (isCyl : Bool) (twoPi : ℚ)
    (nTensors ccTensors : List (List ℚ))
    (interpCore : List (List ℚ) → ℕ → ℕ → ℚ)
    (pts : List (List ℚ)) (zerosOutside : Bool) :
    Except String (ℕ → ℕ → ℚ) :=
  if zerosOutside then
    let Q := interpCore (snapOutside isCyl twoPi nTensors ccTensors pts)
    Except.ok (fun r c =>
      if isInside isCyl "N" twoPi nTensors (pts.getD r []) then Q r c else 0)
  else
    if pts.all (fun p => isInside isCyl "N" twoPi nTensors p) then
      Except.ok (interpCore pts)
    else
      Except.error "Points outside of mesh"

/-- C8: if `zerosOutside=false` and some requested point is outside the
mesh, the call fails with the out-of-domain error; if `zerosOutside=true`
it always succeeds, the returned matrix agrees with the interpolation of
the snapped points on the rows of in-domain points, and every row whose
point is out of domain is identically zero. -/
theorem getInterpolationMat_spec (isCyl : Bool) (twoPi : ℚ)
    (nTensors ccTensors : List (List ℚ))
    (interpCore : List (List ℚ) → ℕ → ℕ → ℚ)
    (pts : List (List ℚ)) (p : List ℚ) (hp : p ∈ pts)
    (hout : isInside isCyl "N" twoPi nTensors p = false) :
    getInterpolationMat isCyl twoPi nTensors ccTensors interpCore pts false =
      Except.error "Points outside of mesh" ∧
    (∃ Q, getInterpolationMat isCyl twoPi nTensors ccTensors interpCore
        pts true = Except.ok Q ∧
      (∀ r, isInside isCyl "N" twoPi nTensors (pts.getD r []) = true →
        ∀ c, Q r c =
          interpCore (snapOutside isCyl twoPi nTensors ccTensors pts) r c) ∧
      (∀ r, isInside isCyl "N" twoPi nTensors (pts.getD r []) = false →
        ∀ c, Q r c = 0)) := by
  constructor
  · rw [getInterpolationMat, if_neg (by simp)]
    rw [if_neg]
    intro hall
    rw [List.all_eq_true] at hall
    have := hall p hp
    rw [hout] at this
    exact absurd this (by simp)
  · refine ⟨_, by rw [getInterpolationMat, if_pos rfl], ?_, ?_⟩
    · intro r hr c
      simp only [List.getD_eq_getElem?_getD] at hr
      simp [hr]
    · intro r hr c
      simp only [List.getD_eq_getElem?_getD] at hr
      simp [hr]

/-- C8 witness: the 1-D mesh with node tensor `[0,1,2]`, cell-center
tensor `[1/2, 3/2]`, the constant-1 interpolation core, and the single
out-of-domain point `[5]`. -/
theorem getInterpolationMat_spec_witness :
    getInterpolationMat false 0 [[0, 1, 2]] [[1/2, 3/2]]
      (fun _ _ _ => (1 : ℚ)) [[5]] false =
      Except.error "Points outside of mesh" ∧
    (∃ Q, getInterpolationMat false 0 [[0, 1, 2]] [[1/2, 3/2]]
        (fun _ _ _ => (1 : ℚ)) [[5]] true = Except.ok Q ∧
      (∀ r, isInside false "N" 0 [[0, 1, 2]] (([[(5 : ℚ)]]).getD r []) = true →
        ∀ c, Q r c =
          (fun _ _ _ => (1 : ℚ))
            (snapOutside false 0 [[0, 1, 2]] [[1/2, 3/2]] [[5]]) r c) ∧
      (∀ r, isInside false "N" 0 [[0, 1, 2]] (([[(5 : ℚ)]]).getD r []) = false →
        ∀ c, Q r c = 0)) :=
  getInterpolationMat_spec false 0 [[0, 1, 2]] [[1/2, 3/2]]
    (fun _ _ _ => (1 : ℚ)) [[5]] [5] (by simp)
    (by norm_num [isInside, cylAdjust, insideAxis, listMin, listMax,
      tolAxis, diffList])

/-! ## Fast inner-product matrix (`BaseTensorMesh._fastInnerProduct`) -/

/-- `BaseTensorMesh._fastInnerProduct`, isotropic branch
(`prop.size == self.nC`) on an ordinary (non-cylindrical) mesh:
`M = n_elements * utils.sdiag(Av.T * (self.vol * prop))` with
`n_elements = self.dim`; `Av` is the externally supplied face/edge-to-
cell-center averaging operator (`aveF2CC` / `aveE2CC`, from the
differential-operator collaborator, not under `src/`).  With
`invProp` the property is reciprocated first; with `invMat` the final
diagonal matrix is replaced by `utils.sdInv(M)`, its diagonal inverse. -/
def fastInnerProduct {nc nf : ℕ} (dim : ℕ)
    (Av : Matrix (Fin nc) (Fin nf) ℚ) (vol prop : Fin nc → ℚ)
    (invProp invMat : Bool) : Matrix (Fin nf) (Fin nf) ℚ :=
  let prop1 : Fin nc → ℚ := if invProp then (fun i => (prop i)⁻¹) else prop
  let M : Matrix (Fin nf) (Fin nf) ℚ :=
    (dim : ℚ) • Matrix.diagonal (Av.transpose.mulVec (fun i => vol i * prop1 i))
  if invMat then Matrix.diagonal (fun f => (M f f)⁻¹) else M

/-- Modelled from the spec: the matrix the specification's sentence
literally describes, `scale * Average^T * diag(cellVolume * property) *
Average`. -/
def specInnerProduct {nc nf : ℕ} (scale : ℕ)
    (Av : Matrix (Fin nc) (Fin nf) ℚ) (vol prop : Fin nc → ℚ) :
    Matrix (Fin nf) (Fin nf) ℚ :=
  (scale : ℚ) •
    (Av.transpose * Matrix.diagonal (fun i => vol i * prop i) * Av)

/-- Modelled from the spec (glossary): the 1-D face-to-cell-center
averaging operator for a mesh with two cells and three faces — each cell
averages its two bounding faces. -/
def aveF2CC2 : Matrix (Fin 2) (Fin 3) ℚ :=
  !![1/2, 1/2, 0; 0, 1/2, 1/2]

/-- C1 counterexample: already on the 1-D mesh with two unit cells and
uniform unit property, the code's matrix is `diag(1/2, 1, 1/2)` while
`scale * Average^T * diag(vol * prop) * Average` has `(0,0)` entry `1/4`:
the two matrices differ at entry `(0,0)`. -/
theorem fastInnerProduct_claim_false :
    fastInnerProduct 1 aveF2CC2 (fun _ => 1) (fun _ => 1) false false 0 0 ≠
      specInnerProduct 1 aveF2CC2 (fun _ => 1) (fun _ => 1) 0 0 := by
  have h1 : fastInnerProduct 1 aveF2CC2 (fun _ => 1) (fun _ => 1)
      false false 0 0 = 1/2 := by
    simp [fastInnerProduct, aveF2CC2, Matrix.mulVec, Matrix.dotProduct,
      Fin.sum_univ_succ, Matrix.diagonal]
  have h2 : specInnerProduct 1 aveF2CC2 (fun _ => 1) (fun _ => 1) 0 0
      = 1/4 := by
    simp [specInnerProduct, aveF2CC2, Matrix.mul_apply, Matrix.diagonal,
      Fin.sum_univ_succ]
    norm_num
  rw [h1, h2]
  norm_num

/-- C1 (amended): for an isotropic per-cell property on an ordinary mesh
the fast inner-product matrix is `scale` times the **diagonal** matrix
whose `f`-th diagonal entry is the `f`-th entry of
`Average^T (cellVolume * property)`, i.e.
`scale * Σ_c Average[c,f] * vol[c] * prop[c]`; all off-diagonal entries
are zero (the code takes `sdiag` of the averaged vector, it does not
sandwich the diagonal weight between `Average^T` and `Average`).  The
scale is the mesh dimension. -/
theorem fastInnerProduct_spec {nc nf : ℕ} (dim : ℕ)
    (Av : Matrix (Fin nc) (Fin nf) ℚ) (vol prop : Fin nc → ℚ)
    (f g : Fin nf) (hfg : f ≠ g) :
    fastInnerProduct dim Av vol prop false false f f =
      (dim : ℚ) * ∑ c, Av c f * (vol c * prop c) ∧
    fastInnerProduct dim Av vol prop false false f g = 0 := by
  constructor
  · simp [fastInnerProduct, Matrix.mulVec, Matrix.dotProduct, Matrix.transpose,
      Matrix.diagonal, Finset.mul_sum]
  · simp [fastInnerProduct, Matrix.diagonal, hfg]

/-- C1 witness: the amended statement instantiated on the two-cell 1-D
mesh with its face-to-cell-center averaging operator, unit volumes and
unit property, at entries `(0,0)` and `(0,1)`. -/
theorem fastInnerProduct_spec_witness :
    fastInnerProduct 1 aveF2CC2 (fun _ => 1) (fun _ => 1) false false 0 0 =
      (1 : ℚ) * ∑ c, aveF2CC2 c 0 * ((fun _ => (1 : ℚ)) c *
        (fun _ => (1 : ℚ)) c) ∧
    fastInnerProduct 1 aveF2CC2 (fun _ => 1) (fun _ => 1) false false 0 1 =
      0 :=
  fastInnerProduct_spec 1 aveF2CC2 (fun _ => 1) (fun _ => 1) 0 1
    (by decide)

/-! ## Curvilinear cell volumes (`CurvilinearMesh.vol`) -/

/-- Modelled from the spec: the 2-D cell volume is the polygon area of
the cell's 4 corner nodes via the shoelace-style cross-product formula
(the code reaches it through `utils.faceInfo` on the zero-padded node
grid; `faceInfo` is not under `src/`). -/
def shoelaceArea (A B C D : ℚ × ℚ) : ℚ :=
  |A.1 * (B.2 - D.2) + B.1 * (C.2 - A.2) +
    C.1 * (D.2 - B.2) + D.1 * (A.2 - C.2)| / 2

/-- `CurvilinearMesh.vol`, `dim == 2` branch, for the logical cell
`(i, j)`: corners in the source's documented traversal order
`A = node(i,j)`, `B = node(i,j+1)`, `C = node(i+1,j+1)`,
`D = node(i+1,j)`. -/
def vol2D (nodes : ℕ → ℕ → ℚ × ℚ) (i j : ℕ) : ℚ :=
  shoelaceArea (nodes i j) (nodes i (j+1)) (nodes (i+1) (j+1)) (nodes (i+1) j)

/-- Determinant of three stacked 3-vectors. -/
def det3 (u v w : Fin 3 → ℚ) : ℚ :=
  u 0 * (v 1 * w 2 - v 2 * w 1) - u 1 * (v 0 * w 2 - v 2 * w 0) +
    u 2 * (v 0 * w 1 - v 1 * w 0)

/-- Modelled from the spec: `utils.volTetra` (not under `src/`) — the
volume of the tetrahedron with the four given corners. -/
def volTetra (a b c d : Fin 3 → ℚ) : ℚ :=
  |det3 (fun k => b k - a k) (fun k => c k - a k) (fun k => d k - a k)| / 6

/-- `CurvilinearMesh.vol`, `dim == 3` branch, for one cell with corner
nodes labelled `A..H` as in the source's cube diagram
(`A = node(i,j,k)`, `B = node(i,j+1,k)`, `C = node(i+1,j+1,k)`,
`D = node(i+1,j,k)`, `E`–`H` the same square at `k+1`): the average of
the two 5-tetrahedron decompositions `vol1` and `vol2`. -/
def vol3DCell (A B C D E F G H : Fin 3 → ℚ) : ℚ :=
  ((volTetra A B D E + volTetra B E F G + volTetra B D E G +
    volTetra B C D G + volTetra D E G H) +
   (volTetra A F B C + volTetra A E F H + volTetra A H F C +
    volTetra C H D A + volTetra C G H F)) / 2

/-- C5: the 3-D cell volume is the average of the two 5-tetrahedron
decomposition sums (first decomposition: tetrahedra `ABDE`, `BEFG`,
`BDEG`, `BCDG`, `DEGH`; second: `AFBC`, `AEFH`, `AHFC`, `CHDA`, `CGHF`),
and on the 2-D curvilinear mesh whose node grid is the axis-aligned
integer lattice (unit spacing in both directions) every cell volume is
`1`; on the unit cube both decomposition sums equal `1`, hence so does
the averaged volume. -/
theorem vol_decomposition_spec (i j : ℕ) (A B C D E F G H : Fin 3 → ℚ) :
    vol3DCell A B C D E F G H =
      ((volTetra A B D E + volTetra B E F G + volTetra B D E G +
        volTetra B C D G + volTetra D E G H) +
       (volTetra A F B C + volTetra A E F H + volTetra A H F C +
        volTetra C H D A + volTetra C G H F)) / 2 ∧
    vol2D (fun a b => ((a : ℚ), (b : ℚ))) i j = 1 ∧
    (volTetra ![0,0,0] ![0,1,0] ![1,0,0] ![0,0,1] +
      volTetra ![0,1,0] ![0,0,1] ![0,1,1] ![1,1,1] +
      volTetra ![0,1,0] ![1,0,0] ![0,0,1] ![1,1,1] +
      volTetra ![0,1,0] ![1,1,0] ![1,0,0] ![1,1,1] +
      volTetra ![1,0,0] ![0,0,1] ![1,1,1] ![1,0,1]) = 1 ∧
    (volTetra ![0,0,0] ![0,1,1] ![0,1,0] ![1,1,0] +
      volTetra ![0,0,0] ![0,0,1] ![0,1,1] ![1,0,1] +
      volTetra ![0,0,0] ![1,0,1] ![0,1,1] ![1,1,0] +
      volTetra ![1,1,0] ![1,0,1] ![1,0,0] ![0,0,0] +
      volTetra ![1,1,0] ![1,1,1] ![1,0,1] ![0,1,1]) = 1 ∧
    vol3DCell ![0,0,0] ![0,1,0] ![1,1,0] ![1,0,0]
      ![0,0,1] ![0,1,1] ![1,1,1] ![1,0,1] = 1 := by
  refine ⟨rfl, ?_, ?_, ?_, ?_⟩
  · have key : ∀ x : ℚ, x = -2 → |x| / 2 = 1 := by
      intro x hx
      rw [hx]
      norm_num
    apply key
    push_cast [vol2D, shoelaceArea]
    ring
  · norm_num [volTetra, det3, Matrix.cons_val_zero, Matrix.cons_val_one,
      Matrix.head_cons]
  · norm_num [volTetra, det3, Matrix.cons_val_zero, Matrix.cons_val_one,
      Matrix.head_cons]
  · norm_num [vol3DCell, volTetra, det3, Matrix.cons_val_zero,
      Matrix.cons_val_one, Matrix.head_cons]

end Discretize
